import Mathlib

/-!
Verification of the ciphra.pay NEAR contracts: a shallow embedding of the
escrow, atomic-swap and p2p-transfer/shielded-pool contracts
(`src/contract/near-contract/{escrow-contract,swap-contract,p2p-transfer}/src/lib.rs`)
together with proofs about their transition functions.

Modelling conventions:
* `near_sdk::collections::UnorderedMap`/`LookupMap` are modelled as association
  lists with an `insert` that replaces any previous binding of the key.
* Account ids are opaque strings (NEAR validates them externally); numeric
  string fields such as `Escrow.amount` (a `u128` stored via
  `to_string`/`parse`) are modelled directly as `Nat`, since for records
  created by the contract the round trip is the identity.
* A contract method is a pure function from the pre-state, the call
  environment (`predecessor_account_id`, `block_timestamp`,
  `attached_deposit`) and the arguments to `Except String (state × transfers)`:
  `.error` models a Rust `assert!`/`expect` panic, and the list collects the
  `Promise::new(r).transfer(a)` calls issued by the method.
* `env::sha256` is a host primitive, so the swap module is parametric in it.
-/

set_option linter.dupNamespace false

namespace CiphraPay

abbrev AccountId := String

/-- An outbound value transfer queued by a transition
(`Promise::new(recipient).transfer(amount)`). -/
structure TransferOut where
  recipient : AccountId
  amount : Nat
deriving DecidableEq, Repr

/-- The host-supplied call context: `env::predecessor_account_id()`,
`env::block_timestamp()`, `env::attached_deposit()`. -/
structure CallEnv where
  predecessor : AccountId
  block_timestamp : Nat
  attached_deposit : Nat
deriving DecidableEq, Repr

/-- Lookup in an association-list model of `UnorderedMap`. -/
def mapGet {α : Type} : List (String × α) → String → Option α
  | [], _ => none
  | (k, v) :: rest, key => if k = key then some v else mapGet rest key

/-- Insert-or-replace in an association-list model of `UnorderedMap`. -/
def mapInsert {α : Type} (m : List (String × α)) (key : String) (v : α) :
    List (String × α) :=
  (key, v) :: m.filter (fun p => p.1 != key)

/-- Modelled from the spec (§5, §7): the host commits a transition's writes
atomically and a panic reverts them all, so a failing call leaves the
pre-state untouched and queues no transfer. The host runtime itself is not
part of this repository. -/
def commit {σ : Type} (st : σ) (r : Except String (σ × List TransferOut)) :
    σ × List TransferOut :=
  match r with
  | .ok x => x
  | .error _ => (st, [])

/-! ## Escrow contract (`escrow-contract/src/lib.rs`) -/

namespace Escrow

inductive EscrowStatus where
  | Active
  | Completed
  | Disputed
  | Refunded
deriving DecidableEq, Repr

structure CrossChainProof where
  chain_id : String
  tx_hash : String
  block_number : Nat
  proof_data : String
  verified : Bool
  verified_at : Option Nat
deriving DecidableEq, Repr

structure Escrow where
  escrow_id : String
  depositor : String
  beneficiary : String
  amount : Nat
  release_time : Nat
  status : EscrowStatus
  cross_chain_proof : Option CrossChainProof
  arbiter : Option String
  created_at : Nat
  metadata : String
deriving DecidableEq, Repr

/-- Rust `escrow.cross_chain_proof.as_ref().map_or(false, |p| p.verified)`. -/
def Escrow.proofVerified (e : Escrow) : Bool :=
  match e.cross_chain_proof with
  | some p => p.verified
  | none => false

structure EscrowContract where
  escrows : List (String × Escrow)
  proof_verifications : List (String × Bool)
  owner : AccountId
  trusted_verifiers : List AccountId
deriving DecidableEq, Repr

def EscrowContract.new (owner : AccountId) : EscrowContract :=
  { escrows := [], proof_verifications := [], owner, trusted_verifiers := [owner] }

def create_escrow (st : EscrowContract) (env : CallEnv) (escrow_id : String)
    (beneficiary : AccountId) (release_time : Nat) (arbiter : Option AccountId)
    (metadata : String) : Except String (EscrowContract × List TransferOut) :=
  let depositor := env.predecessor
  let amount := env.attached_deposit
  if ¬ amount > 0 then .error "Must attach NEAR tokens"
  else if (mapGet st.escrows escrow_id).isSome then .error "Escrow ID already exists"
  else if ¬ release_time > env.block_timestamp then .error "Release time must be in future"
  else
    let escrow : Escrow :=
      { escrow_id, depositor, beneficiary, amount, release_time,
        status := .Active, cross_chain_proof := none, arbiter,
        created_at := env.block_timestamp, metadata }
    .ok ({ st with escrows := mapInsert st.escrows escrow_id escrow }, [])

def submit_cross_chain_proof (st : EscrowContract) (escrow_id chain_id tx_hash : String)
    (block_number : Nat) (proof_data : String) :
    Except String (EscrowContract × List TransferOut) :=
  match mapGet st.escrows escrow_id with
  | none => .error "Escrow not found"
  | some escrow =>
    if escrow.status = .Active then
      let proof : CrossChainProof :=
        { chain_id, tx_hash, block_number, proof_data,
          verified := false, verified_at := none }
      .ok ({ st with escrows :=
              mapInsert st.escrows escrow_id { escrow with cross_chain_proof := some proof } },
           [])
    else .error "Escrow must be active"

def verify_proof (st : EscrowContract) (env : CallEnv) (escrow_id : String) :
    Except String (EscrowContract × List TransferOut) :=
  if ¬ (env.predecessor ∈ st.trusted_verifiers ∨ env.predecessor = st.owner) then
    .error "Not authorized to verify proofs"
  else
    match mapGet st.escrows escrow_id with
    | none => .error "Escrow not found"
    | some escrow =>
      match escrow.cross_chain_proof with
      | none => .error "No proof submitted"
      | some proof =>
        let proof' := { proof with verified := true, verified_at := some env.block_timestamp }
        let escrow' := { escrow with cross_chain_proof := some proof' }
        let proof_key := proof.chain_id ++ ":" ++ proof.tx_hash
        .ok ({ st with
                escrows := mapInsert st.escrows escrow_id escrow',
                proof_verifications := mapInsert st.proof_verifications proof_key true },
             [])

def release_funds (st : EscrowContract) (env : CallEnv) (escrow_id : String) :
    Except String (EscrowContract × List TransferOut) :=
  match mapGet st.escrows escrow_id with
  | none => .error "Escrow not found"
  | some escrow =>
    let is_beneficiary := env.predecessor = escrow.beneficiary
    let is_arbiter := escrow.arbiter = some env.predecessor
    let time_passed := env.block_timestamp ≥ escrow.release_time
    let proof_verified := escrow.proofVerified = true
    if ¬ ((is_beneficiary ∧ (time_passed ∨ proof_verified)) ∨ is_arbiter) then
      .error "Cannot release funds yet"
    else if ¬ escrow.status = .Active then .error "Escrow not active"
    else
      let escrow' := { escrow with status := .Completed }
      .ok ({ st with escrows := mapInsert st.escrows escrow_id escrow' },
           [⟨escrow.beneficiary, escrow.amount⟩])

def refund_escrow (st : EscrowContract) (env : CallEnv) (escrow_id : String) :
    Except String (EscrowContract × List TransferOut) :=
  match mapGet st.escrows escrow_id with
  | none => .error "Escrow not found"
  | some escrow =>
    let is_depositor := env.predecessor = escrow.depositor
    let is_arbiter := escrow.arbiter = some env.predecessor
    if ¬ (is_depositor ∨ is_arbiter) then .error "Only depositor or arbiter can refund"
    else
      let time_passed := env.block_timestamp ≥ escrow.release_time
      let no_verified_proof := ¬ escrow.proofVerified = true
      if ¬ (time_passed ∧ no_verified_proof) then
        .error "Cannot refund: time not passed or proof verified"
      else
        let escrow' := { escrow with status := .Refunded }
        .ok ({ st with escrows := mapInsert st.escrows escrow_id escrow' },
             [⟨escrow.depositor, escrow.amount⟩])

def raise_dispute (st : EscrowContract) (env : CallEnv) (escrow_id : String) :
    Except String (EscrowContract × List TransferOut) :=
  match mapGet st.escrows escrow_id with
  | none => .error "Escrow not found"
  | some escrow =>
    if ¬ (env.predecessor = escrow.depositor ∨ env.predecessor = escrow.beneficiary) then
      .error "Only parties can raise dispute"
    else
      .ok ({ st with escrows :=
              mapInsert st.escrows escrow_id { escrow with status := .Disputed } },
           [])

/-! ### Escrow scenario states used by the theorems -/


/-- A fresh contract with a single active escrow `e1`: depositor `alice`,
beneficiary `bob`, amount 7, `release_time` 100, no arbiter, created at 0. -/
def escStart : EscrowContract := EscrowContract.new "owner"

def escBase : EscrowContract :=
  (commit escStart (create_escrow escStart ⟨"alice", 0, 7⟩ "e1" "bob" 100 none "")).1

def escBaseRecord : Escrow :=
  { escrow_id := "e1", depositor := "alice", beneficiary := "bob", amount := 7,
    release_time := 100, status := .Active, cross_chain_proof := none,
    arbiter := none, created_at := 0, metadata := "" }

/-- Escrow `e1` released by the beneficiary at time 150 (past `release_time`):
status `Completed`, the full amount already paid out to `bob`. -/
def escCompleted : EscrowContract :=
  (commit escBase (release_funds escBase ⟨"bob", 150, 0⟩ "e1")).1

/-- Escrow `e1` put in `Disputed` status by the depositor. -/
def escDisputed : EscrowContract :=
  (commit escBase (raise_dispute escBase ⟨"alice", 50, 0⟩ "e1")).1

/-- Escrow `e1` carrying a proof submitted and then verified by the owner;
the escrow is still `Active`. -/
def escVerifiedProof : EscrowContract :=
  let s2 := (commit escBase (submit_cross_chain_proof escBase "e1" "eth" "0xabc" 1 "d")).1
  (commit s2 (verify_proof s2 ⟨"owner", 10, 0⟩ "e1")).1

end Escrow

/-! ## Atomic-swap contract (`swap-contract/src/lib.rs`) -/

namespace Swap

/-- Lowercase hex digit, as produced by `hex::encode`. -/
def hexDigit (n : Nat) : Char :=
  if n < 10 then Char.ofNat (48 + n) else Char.ofNat (87 + n)

/-- Rust `hex::encode`: lowercase hex of a byte string (bytes as `Nat < 256`). -/
def hexEncode (bs : List Nat) : String :=
  String.mk (bs.flatMap (fun b => [hexDigit (b / 16 % 16), hexDigit (b % 16)]))

/-- The bytes of a string, `secret.as_bytes()`. -/
def strBytes (s : String) : List Nat :=
  s.toUTF8.toList.map (fun b => b.toNat)

inductive HashAlgorithm where
  | SHA256
  | Poseidon
deriving DecidableEq, Repr

inductive SwapStatus where
  | Initiated
  | Locked
  | Completed
  | Refunded
  | Cancelled
deriving DecidableEq, Repr

structure AtomicSwap where
  swap_id : String
  initiator : String
  participant : String
  amount : Nat
  hash_lock : String
  hash_algorithm : HashAlgorithm
  time_lock : Nat
  status : SwapStatus
  secret : Option String
  target_chain : String
  target_address : String
  counterparty_swap_id : Option String
  created_at : Nat
deriving DecidableEq, Repr

structure PoseidonVerification where
  swap_id : String
  poseidon_hash : String
  verified : Bool
  verified_at : Option Nat
deriving DecidableEq, Repr

structure SwapContract where
  swaps : List (String × AtomicSwap)
  swaps_by_initiator : List (String × List String)
  swaps_by_participant : List (String × List String)
  oracle_verifications : List (String × PoseidonVerification)
  owner : AccountId
  oracle_account : AccountId
  fee_recipient : AccountId
  fee_percentage : Nat
  min_time_lock : Nat
  max_time_lock : Nat
deriving DecidableEq, Repr

def SwapContract.new (owner oracle_account : AccountId) : SwapContract :=
  { swaps := [], swaps_by_initiator := [], swaps_by_participant := [],
    oracle_verifications := [], owner, oracle_account,
    fee_recipient := owner, fee_percentage := 30,
    min_time_lock := 3600, max_time_lock := 86400 }

/-- Rust `fn hash_secret(&self, secret: &str) -> String`, parametric in the host
primitive `env::sha256`. -/
def hash_secret (sha256 : List Nat → List Nat) (secret : String) : String :=
  hexEncode (sha256 (strBytes secret))

def addToIndex (idx : List (String × List String)) (account : AccountId)
    (swap_id : String) : List (String × List String) :=
  mapInsert idx account (((mapGet idx account).getD []) ++ [swap_id])

def initiate_swap (st : SwapContract) (env : CallEnv) (swap_id : String)
    (participant : AccountId) (hash_lock : String) (hash_algorithm : HashAlgorithm)
    (time_lock_duration : Nat) (target_chain target_address : String)
    (counterparty_swap_id : Option String) :
    Except String (SwapContract × List TransferOut) :=
  let initiator := env.predecessor
  let amount := env.attached_deposit
  if ¬ amount > 0 then .error "Must attach NEAR tokens"
  else if (mapGet st.swaps swap_id).isSome then .error "Swap ID already exists"
  else if ¬ (time_lock_duration ≥ st.min_time_lock ∧ time_lock_duration ≤ st.max_time_lock) then
    .error "Time lock duration out of bounds"
  else if ¬ hash_lock.length = 64 then .error "Hash lock must be 64 characters (32 bytes hex)"
  else
    let time_lock := env.block_timestamp + time_lock_duration * 1000000000
    let swap : AtomicSwap :=
      { swap_id, initiator, participant, amount, hash_lock, hash_algorithm,
        time_lock, status := .Initiated, secret := none, target_chain,
        target_address, counterparty_swap_id, created_at := env.block_timestamp }
    .ok ({ st with
            swaps := mapInsert st.swaps swap_id swap,
            swaps_by_initiator := addToIndex st.swaps_by_initiator initiator swap_id,
            swaps_by_participant := addToIndex st.swaps_by_participant participant swap_id },
         [])

def lock_swap (st : SwapContract) (env : CallEnv) (swap_id : String) :
    Except String (SwapContract × List TransferOut) :=
  match mapGet st.swaps swap_id with
  | none => .error "Swap not found"
  | some swap =>
    if ¬ env.predecessor = swap.participant then .error "Only participant can lock"
    else if ¬ swap.status = .Initiated then .error "Swap must be in Initiated status"
    else if ¬ env.block_timestamp < swap.time_lock then .error "Swap has expired"
    else
      .ok ({ st with swaps := mapInsert st.swaps swap_id { swap with status := .Locked } }, [])

def complete_swap_with_oracle_verification (sha256 : List Nat → List Nat)
    (st : SwapContract) (env : CallEnv) (swap_id : String) (secret : String) :
    Except String (SwapContract × List TransferOut) :=
  match mapGet st.swaps swap_id with
  | none => .error "Swap not found"
  | some swap =>
    let hashCheck : Except String Unit :=
      if swap.hash_algorithm = .Poseidon then
        match mapGet st.oracle_verifications swap_id with
        | none => .error "Oracle verification required for Poseidon"
        | some verification =>
          if ¬ verification.verified = true then .error "Oracle verification not completed"
          else .ok ()
      else
        if ¬ hash_secret sha256 secret = swap.hash_lock then .error "Invalid secret"
        else .ok ()
    match hashCheck with
    | .error e => .error e
    | .ok () =>
      if ¬ swap.status = .Locked then .error "Swap must be locked"
      else if ¬ env.block_timestamp < swap.time_lock then .error "Swap has expired"
      else
        let swap' := { swap with secret := some secret, status := .Completed }
        let fee := swap.amount * st.fee_percentage / 10000
        let payout := swap.amount - fee
        .ok ({ st with swaps := mapInsert st.swaps swap_id swap' },
             (if fee > 0 then [⟨st.fee_recipient, fee⟩] else []) ++ [⟨swap.participant, payout⟩])

def submit_oracle_verification (st : SwapContract) (env : CallEnv) (swap_id : String)
    (poseidon_hash : String) (secret_matches : Bool) :
    Except String (SwapContract × List TransferOut) :=
  if ¬ env.predecessor = st.oracle_account then .error "Only oracle can verify"
  else
    match mapGet st.swaps swap_id with
    | none => .error "Swap not found"
    | some swap =>
      if ¬ swap.hash_algorithm = .Poseidon then .error "Not a Poseidon swap"
      else
        let verification : PoseidonVerification :=
          { swap_id, poseidon_hash, verified := secret_matches,
            verified_at := some env.block_timestamp }
        .ok ({ st with oracle_verifications :=
                mapInsert st.oracle_verifications swap_id verification }, [])

def refund_swap (st : SwapContract) (env : CallEnv) (swap_id : String) :
    Except String (SwapContract × List TransferOut) :=
  match mapGet st.swaps swap_id with
  | none => .error "Swap not found"
  | some swap =>
    if ¬ env.predecessor = swap.initiator then .error "Only initiator can refund"
    else if swap.status = .Completed ∨ swap.status = .Refunded then
      .error "Cannot refund completed or already refunded swap"
    else if ¬ env.block_timestamp ≥ swap.time_lock then .error "Time lock has not expired yet"
    else
      .ok ({ st with swaps := mapInsert st.swaps swap_id { swap with status := .Refunded } },
           [⟨swap.initiator, swap.amount⟩])

def set_fee_percentage (st : SwapContract) (env : CallEnv) (fee_percentage : Nat) :
    Except String (SwapContract × List TransferOut) :=
  if ¬ env.predecessor = st.owner then .error "Only owner"
  else if ¬ fee_percentage ≤ 1000 then .error "Fee cannot exceed 10%"
  else .ok ({ st with fee_percentage }, [])

def set_fee_recipient (st : SwapContract) (env : CallEnv) (fee_recipient : AccountId) :
    Except String (SwapContract × List TransferOut) :=
  if ¬ env.predecessor = st.owner then .error "Only owner"
  else .ok ({ st with fee_recipient }, [])

def set_oracle_account (st : SwapContract) (env : CallEnv) (oracle_account : AccountId) :
    Except String (SwapContract × List TransferOut) :=
  if ¬ env.predecessor = st.owner then .error "Only owner"
  else .ok ({ st with oracle_account }, [])

/-! ### Swap transition system and scenario states -/

/-- One successful externally-invoked transition of the swap contract, for an
arbitrary caller, block time and attached deposit. The relation is parametric
in the host `sha256` primitive. -/
inductive SwapStep (sha256 : List Nat → List Nat) : SwapContract → SwapContract → Prop where
  | initiate (st : SwapContract) (env : CallEnv) (swap_id participant hash_lock : String)
      (alg : HashAlgorithm) (dur : Nat) (target_chain target_address : String)
      (cs : Option String) (st' : SwapContract) (outs : List TransferOut)
      (h : initiate_swap st env swap_id participant hash_lock alg dur
            target_chain target_address cs = .ok (st', outs)) :
      SwapStep sha256 st st'
  | lock (st : SwapContract) (env : CallEnv) (swap_id : String)
      (st' : SwapContract) (outs : List TransferOut)
      (h : lock_swap st env swap_id = .ok (st', outs)) : SwapStep sha256 st st'
  | complete (st : SwapContract) (env : CallEnv) (swap_id secret : String)
      (st' : SwapContract) (outs : List TransferOut)
      (h : complete_swap_with_oracle_verification sha256 st env swap_id secret
            = .ok (st', outs)) : SwapStep sha256 st st'
  | oracle (st : SwapContract) (env : CallEnv) (swap_id poseidon_hash : String)
      (secret_matches : Bool) (st' : SwapContract) (outs : List TransferOut)
      (h : submit_oracle_verification st env swap_id poseidon_hash secret_matches
            = .ok (st', outs)) : SwapStep sha256 st st'
  | refund (st : SwapContract) (env : CallEnv) (swap_id : String)
      (st' : SwapContract) (outs : List TransferOut)
      (h : refund_swap st env swap_id = .ok (st', outs)) : SwapStep sha256 st st'
  | setFee (st : SwapContract) (env : CallEnv) (fp : Nat)
      (st' : SwapContract) (outs : List TransferOut)
      (h : set_fee_percentage st env fp = .ok (st', outs)) : SwapStep sha256 st st'
  | setRecipient (st : SwapContract) (env : CallEnv) (fr : AccountId)
      (st' : SwapContract) (outs : List TransferOut)
      (h : set_fee_recipient st env fr = .ok (st', outs)) : SwapStep sha256 st st'
  | setOracle (st : SwapContract) (env : CallEnv) (oa : AccountId)
      (st' : SwapContract) (outs : List TransferOut)
      (h : set_oracle_account st env oa = .ok (st', outs)) : SwapStep sha256 st st'

/-- States of the swap contract reachable from initialization by successful
transitions (failed calls leave the state unchanged, so they need no step). -/
inductive SwapReachable (sha256 : List Nat → List Nat) : SwapContract → Prop where
  | init (owner oracle_account : AccountId) :
      SwapReachable sha256 (SwapContract.new owner oracle_account)
  | step {st st' : SwapContract} :
      SwapReachable sha256 st → SwapStep sha256 st st' → SwapReachable sha256 st'

/-- The C6 invariant: every stored swap has its secret exactly when it is
`Completed`, and a completed SHA256 swap's secret hashes to its lock. -/
def SwapInv (sha256 : List Nat → List Nat) (st : SwapContract) : Prop :=
  ∀ id swap, mapGet st.swaps id = some swap →
    (swap.secret.isSome = true ↔ swap.status = .Completed)
    ∧ (swap.hash_algorithm = .SHA256 → swap.status = .Completed →
        ∃ x, swap.secret = some x ∧ hash_secret sha256 x = swap.hash_lock)

/-- A stand-in for the opaque host `sha256` primitive, used only to build
concrete scenario states. -/
def sha0 : List Nat → List Nat := fun _ => List.replicate 32 0

/-- A well-formed 64-character lowercase hash lock, equal to
`hash_secret sha0 s` for every `s`. -/
def hl64 : String := String.mk (List.replicate 64 '0')

def swapStart : SwapContract := SwapContract.new "owner" "oracle"

/-- Account `alice` initiates SHA256 swap `s1` for 10000 with participant `bob`,
duration 3600 s, at block time 0. -/
def swapInit : SwapContract :=
  (commit swapStart (initiate_swap swapStart ⟨"alice", 0, 10000⟩ "s1" "bob" hl64
    .SHA256 3600 "eth" "0x1" none)).1

/-- Account `bob` locks `s1` at block time 5. -/
def swapLocked : SwapContract :=
  (commit swapInit (lock_swap swapInit ⟨"bob", 5, 0⟩ "s1")).1

def swapLockedRecord : AtomicSwap :=
  { swap_id := "s1", initiator := "alice", participant := "bob", amount := 10000,
    hash_lock := hl64, hash_algorithm := .SHA256, time_lock := 3600000000000,
    status := .Locked, secret := none, target_chain := "eth",
    target_address := "0x1", counterparty_swap_id := none, created_at := 0 }

/-- Account `bob` completes `s1` with secret `"hello"` at block time 10. -/
def swapCompleted : SwapContract :=
  (commit swapLocked
    (complete_swap_with_oracle_verification sha0 swapLocked ⟨"bob", 10, 0⟩ "s1" "hello")).1

def swapCompletedRecord : AtomicSwap :=
  { swapLockedRecord with secret := some "hello", status := .Completed }

end Swap

/-! ## P2P transfer and shielded pool (`p2p-transfer/src/lib.rs`) -/

namespace P2P

inductive TransferType where
  | Direct
  | Shielded
deriving DecidableEq, Repr

inductive TransferStatus where
  | Pending
  | Completed
  | Failed
  | Cancelled
deriving DecidableEq, Repr

structure Transfer where
  transfer_id : String
  sender : String
  recipient : String
  amount : Nat
  transfer_type : TransferType
  status : TransferStatus
  commitment : Option String
  nullifier : Option String
  memo : String
  timestamp : Nat
deriving DecidableEq, Repr

structure ShieldedNote where
  note_id : String
  commitment : String
  amount : Nat
  spent : Bool
  nullifier : Option String
  created_at : Nat
deriving DecidableEq, Repr

structure P2PTransferContract where
  transfers : List (String × Transfer)
  user_transfers : List (String × List String)
  shielded_pool : List (String × ShieldedNote)
  owner : AccountId
  fee_percentage : Nat
  fee_recipient : AccountId
deriving DecidableEq, Repr

def P2PTransferContract.new (owner : AccountId) : P2PTransferContract :=
  { transfers := [], user_transfers := [], shielded_pool := [],
    owner, fee_percentage := 10, fee_recipient := owner }

def add_user_transfer (idx : List (String × List String)) (user : AccountId)
    (transfer_id : String) : List (String × List String) :=
  mapInsert idx user (((mapGet idx user).getD []) ++ [transfer_id])

def send_direct (st : P2PTransferContract) (env : CallEnv) (transfer_id : String)
    (recipient : AccountId) (memo : String) :
    Except String (P2PTransferContract × List TransferOut) :=
  let sender := env.predecessor
  let amount := env.attached_deposit
  if ¬ amount > 0 then .error "Must attach NEAR tokens"
  else if (mapGet st.transfers transfer_id).isSome then .error "Transfer ID already exists"
  else
    let transfer : Transfer :=
      { transfer_id, sender, recipient, amount, transfer_type := .Direct,
        status := .Completed, commitment := none, nullifier := none, memo,
        timestamp := env.block_timestamp }
    let st1 := { st with
      transfers := mapInsert st.transfers transfer_id transfer,
      user_transfers := add_user_transfer
        (add_user_transfer st.user_transfers sender transfer_id) recipient transfer_id }
    let fee := amount * st.fee_percentage / 10000
    let payout := amount - fee
    .ok (st1, (if fee > 0 then [⟨st.fee_recipient, fee⟩] else []) ++ [⟨recipient, payout⟩])

def shield_deposit (st : P2PTransferContract) (env : CallEnv) (note_id : String)
    (commitment : String) : Except String (P2PTransferContract × List TransferOut) :=
  let amount := env.attached_deposit
  if ¬ amount > 0 then .error "Must attach NEAR tokens"
  else if (mapGet st.shielded_pool note_id).isSome then .error "Note ID already exists"
  else if ¬ commitment.length = 64 then .error "Commitment must be 64 characters"
  else
    let note : ShieldedNote :=
      { note_id, commitment, amount, spent := false, nullifier := none,
        created_at := env.block_timestamp }
    .ok ({ st with shielded_pool := mapInsert st.shielded_pool note_id note }, [])

/-- Method `shield_transfer`, kept in source order: the input note is marked spent
before the nullifier/commitment length checks run; a later failure discards
the intermediate state (panic rollback). The final `Promise::new(current_account_id())`
moves no value, so the transfer list is empty. -/
def shield_transfer (st : P2PTransferContract) (env : CallEnv)
    (transfer_id input_note_id nullifier new_commitment recipient_commitment
     proof memo : String) : Except String (P2PTransferContract × List TransferOut) :=
  if (mapGet st.transfers transfer_id).isSome then .error "Transfer ID already exists"
  else if ¬ proof.length > 0 then .error "Proof required"
  else
    match mapGet st.shielded_pool input_note_id with
    | none => .error "Input note not found"
    | some input_note =>
      if input_note.spent = true then .error "Note already spent"
      else
        let input_note' := { input_note with spent := true, nullifier := some nullifier }
        let st1 := { st with
          shielded_pool := mapInsert st.shielded_pool input_note_id input_note' }
        if ¬ nullifier.length = 64 then .error "Invalid nullifier"
        else if ¬ new_commitment.length = 64 then .error "Invalid new commitment"
        else if ¬ recipient_commitment.length = 64 then .error "Invalid recipient commitment"
        else
          let transfer : Transfer :=
            { transfer_id, sender := "shielded", recipient := "shielded",
              amount := input_note.amount, transfer_type := .Shielded,
              status := .Completed, commitment := some recipient_commitment,
              nullifier := some nullifier, memo, timestamp := env.block_timestamp }
          .ok ({ st1 with transfers := mapInsert st1.transfers transfer_id transfer }, [])

def shield_withdraw (st : P2PTransferContract) (env : CallEnv)
    (transfer_id note_id nullifier : String) (recipient : AccountId)
    (proof : String) : Except String (P2PTransferContract × List TransferOut) :=
  if (mapGet st.transfers transfer_id).isSome then .error "Transfer ID already exists"
  else
    match mapGet st.shielded_pool note_id with
    | none => .error "Note not found"
    | some note =>
      if note.spent = true then .error "Note already spent"
      else
        let note' := { note with spent := true, nullifier := some nullifier }
        let st1 := { st with shielded_pool := mapInsert st.shielded_pool note_id note' }
        let fee := note.amount * st.fee_percentage / 10000
        let payout := note.amount - fee
        let transfer : Transfer :=
          { transfer_id, sender := "shielded", recipient, amount := payout,
            transfer_type := .Shielded, status := .Completed, commitment := none,
            nullifier := some nullifier, memo := "Shielded withdrawal",
            timestamp := env.block_timestamp }
        let st2 := { st1 with
          transfers := mapInsert st1.transfers transfer_id transfer,
          user_transfers := add_user_transfer st1.user_transfers recipient transfer_id }
        .ok (st2, (if fee > 0 then [⟨st.fee_recipient, fee⟩] else []) ++ [⟨recipient, payout⟩])

/-- Query `is_nullifier_used`: a scan over all notes in the pool. -/
def is_nullifier_used (st : P2PTransferContract) (nullifier : String) : Bool :=
  st.shielded_pool.any (fun p => p.2.nullifier == some nullifier)

def p2p_set_fee_percentage (st : P2PTransferContract) (env : CallEnv)
    (fee_percentage : Nat) : Except String (P2PTransferContract × List TransferOut) :=
  if ¬ env.predecessor = st.owner then .error "Only owner"
  else if ¬ fee_percentage ≤ 500 then .error "Fee cannot exceed 5%"
  else .ok ({ st with fee_percentage }, [])

def p2p_set_fee_recipient (st : P2PTransferContract) (env : CallEnv)
    (fee_recipient : AccountId) : Except String (P2PTransferContract × List TransferOut) :=
  if ¬ env.predecessor = st.owner then .error "Only owner"
  else .ok ({ st with fee_recipient }, [])

/-! ### P2P transition system and scenario states -/

/-- One successful externally-invoked transition of the p2p contract. -/
inductive P2PStep : P2PTransferContract → P2PTransferContract → Prop where
  | direct (st : P2PTransferContract) (env : CallEnv) (transfer_id : String)
      (recipient : AccountId) (memo : String)
      (st' : P2PTransferContract) (outs : List TransferOut)
      (h : send_direct st env transfer_id recipient memo = .ok (st', outs)) :
      P2PStep st st'
  | deposit (st : P2PTransferContract) (env : CallEnv) (note_id commitment : String)
      (st' : P2PTransferContract) (outs : List TransferOut)
      (h : shield_deposit st env note_id commitment = .ok (st', outs)) :
      P2PStep st st'
  | transfer (st : P2PTransferContract) (env : CallEnv)
      (transfer_id input_note_id nullifier new_commitment recipient_commitment
        proof memo : String)
      (st' : P2PTransferContract) (outs : List TransferOut)
      (h : shield_transfer st env transfer_id input_note_id nullifier
            new_commitment recipient_commitment proof memo = .ok (st', outs)) :
      P2PStep st st'
  | withdraw (st : P2PTransferContract) (env : CallEnv)
      (transfer_id note_id nullifier : String) (recipient : AccountId) (proof : String)
      (st' : P2PTransferContract) (outs : List TransferOut)
      (h : shield_withdraw st env transfer_id note_id nullifier recipient proof
            = .ok (st', outs)) : P2PStep st st'
  | setFee (st : P2PTransferContract) (env : CallEnv) (fp : Nat)
      (st' : P2PTransferContract) (outs : List TransferOut)
      (h : p2p_set_fee_percentage st env fp = .ok (st', outs)) : P2PStep st st'
  | setRecipient (st : P2PTransferContract) (env : CallEnv) (fr : AccountId)
      (st' : P2PTransferContract) (outs : List TransferOut)
      (h : p2p_set_fee_recipient st env fr = .ok (st', outs)) : P2PStep st st'

/-- States of the p2p contract reachable from initialization. -/
inductive P2PReachable : P2PTransferContract → Prop where
  | init (owner : AccountId) : P2PReachable (P2PTransferContract.new owner)
  | step {st st' : P2PTransferContract} :
      P2PReachable st → P2PStep st st' → P2PReachable st'

/-- The C7 invariant: a stored shielded note is spent exactly when it
records a nullifier. -/
def NoteInv (st : P2PTransferContract) : Prop :=
  ∀ id note, mapGet st.shielded_pool id = some note →
    (note.spent = true ↔ note.nullifier.isSome = true)

/-- A 64-character commitment string. -/
def c64 : String := String.mk (List.replicate 64 'a')

/-- A 64-character nullifier string. -/
def nul64 : String := String.mk (List.replicate 64 'b')

def p2pStart : P2PTransferContract := P2PTransferContract.new "owner"

/-- Account `alice` shields 1000 under note `n1` with commitment `c64` at time 0. -/
def p2pOneNote : P2PTransferContract :=
  (commit p2pStart (shield_deposit p2pStart ⟨"alice", 0, 1000⟩ "n1" c64)).1

/-- A second deposit: note `n2` holding 2000 under the same commitment. -/
def p2pTwoNotes : P2PTransferContract :=
  (commit p2pOneNote (shield_deposit p2pOneNote ⟨"alice", 0, 2000⟩ "n2" c64)).1

/-- Note `n1` withdrawn to `dave` using nullifier `nul64`. -/
def p2pSpentOne : P2PTransferContract :=
  (commit p2pTwoNotes
    (shield_withdraw p2pTwoNotes ⟨"carol", 5, 0⟩ "t1" "n1" nul64 "dave" "p")).1

/-- Note `n2` also withdrawn to `dave` using the same nullifier `nul64`. -/
def p2pBothSpent : P2PTransferContract :=
  (commit p2pSpentOne
    (shield_withdraw p2pSpentOne ⟨"carol", 6, 0⟩ "t2" "n2" nul64 "dave" "p")).1

def note1Record : ShieldedNote :=
  { note_id := "n1", commitment := c64, amount := 1000, spent := false,
    nullifier := none, created_at := 0 }

end P2P

/-! ## Theorems -/

theorem mapGet_filter_ne {α : Type} (m : List (String × α)) (key k : String)
    (h : ¬ k = key) :
    mapGet (m.filter (fun p => p.1 != key)) k = mapGet m k := by
  induction m with
  | nil => rfl
  | cons p rest ih =>
    obtain ⟨a, b⟩ := p
    by_cases hp : a = key
    · have hf : ¬ (((a, b).1 != key) = true) := by simp [hp]
      have hak : ¬ a = k := fun hak => h (hak ▸ hp)
      rw [List.filter_cons, if_neg hf]
      show mapGet (List.filter (fun p => p.1 != key) rest) k
        = if a = k then some b else mapGet rest k
      rw [if_neg hak, ih]
    · have hf : (((a, b).1 != key) = true) := by simp [hp]
      rw [List.filter_cons, if_pos hf]
      show (if a = k then some b else mapGet (List.filter (fun p => p.1 != key) rest) k)
        = if a = k then some b else mapGet rest k
      by_cases hak : a = k
      · simp [hak]
      · rw [if_neg hak, if_neg hak, ih]

theorem mapGet_insert {α : Type} (m : List (String × α)) (key k : String) (v : α) :
    mapGet (mapInsert m key v) k = if k = key then some v else mapGet m k := by
  unfold mapInsert
  show (if key = k then some v else mapGet (List.filter (fun p => p.1 != key) m) k)
    = if k = key then some v else mapGet m k
  by_cases h : k = key
  · simp [h]
  · rw [if_neg (fun hk => h hk.symm), if_neg h, mapGet_filter_ne m key k h]

namespace Escrow

/-- C1: `release_funds` succeeds if and only if the escrow is `Active` and
either the caller is the beneficiary with (time passed or verified proof) or
the caller is the arbiter; on success the status becomes `Completed` and a
single outbound transfer of the full amount goes to the beneficiary; on any
failed precondition the committed state is unchanged and nothing is paid. -/
theorem release_funds_characterization (st : EscrowContract) (env : CallEnv)
    (escrow_id : String) (e : Escrow)
    (hget : mapGet st.escrows escrow_id = some e) :
    ((∃ r, release_funds st env escrow_id = .ok r) ↔
      (e.status = .Active ∧
        ((env.predecessor = e.beneficiary ∧
            (env.block_timestamp ≥ e.release_time ∨ e.proofVerified = true)) ∨
          e.arbiter = some env.predecessor)))
    ∧ (∀ st' outs, release_funds st env escrow_id = .ok (st', outs) →
        st' = { st with escrows := mapInsert st.escrows escrow_id { e with status := .Completed } }
        ∧ outs = [⟨e.beneficiary, e.amount⟩])
    ∧ (¬ (e.status = .Active ∧
        ((env.predecessor = e.beneficiary ∧
            (env.block_timestamp ≥ e.release_time ∨ e.proofVerified = true)) ∨
          e.arbiter = some env.predecessor)) →
        commit st (release_funds st env escrow_id) = (st, [])) := by
  by_cases hauth : ((env.predecessor = e.beneficiary ∧
      (env.block_timestamp ≥ e.release_time ∨ e.proofVerified = true)) ∨
    e.arbiter = some env.predecessor)
  · by_cases hstat : e.status = EscrowStatus.Active
    · have hrf : release_funds st env escrow_id =
          .ok ({ st with escrows := mapInsert st.escrows escrow_id { e with status := .Completed } },
               [⟨e.beneficiary, e.amount⟩]) := by
        simp [release_funds, hget, hauth, hstat]
      refine ⟨⟨fun _ => ⟨hstat, hauth⟩, fun _ => ⟨_, hrf⟩⟩, ?_, ?_⟩
      · intro st' outs h
        rw [hrf] at h
        injection h with h
        exact ⟨(congrArg Prod.fst h).symm, (congrArg Prod.snd h).symm⟩
      · intro hc
        exact absurd ⟨hstat, hauth⟩ hc
    · have hrf : release_funds st env escrow_id = .error "Escrow not active" := by
        simp [release_funds, hget, hauth, hstat]
      refine ⟨⟨fun ⟨r, hr⟩ => ?_, fun ⟨h1, _⟩ => absurd h1 hstat⟩, ?_, ?_⟩
      · rw [hrf] at hr; cases hr
      · intro st' outs h; rw [hrf] at h; cases h
      · intro _; rw [hrf]; rfl
  · have hrf : release_funds st env escrow_id = .error "Cannot release funds yet" := by
      simp [release_funds, hget, hauth]
    refine ⟨⟨fun ⟨r, hr⟩ => ?_, fun ⟨_, h2⟩ => absurd h2 hauth⟩, ?_, ?_⟩
    · rw [hrf] at hr; cases hr
    · intro st' outs h; rw [hrf] at h; cases h
    · intro _; rw [hrf]; rfl

theorem release_funds_characterization_witness :
    (∃ r, release_funds escBase ⟨"bob", 150, 0⟩ "e1" = .ok r) :=
  (release_funds_characterization escBase ⟨"bob", 150, 0⟩ "e1" escBaseRecord
      (by decide)).1.mpr ⟨rfl, Or.inl ⟨rfl, Or.inl (by decide)⟩⟩

/-- C2: the escrow `e1` has already been released (status `Completed`, the
full 7 paid to the beneficiary), yet `refund_escrow` called by the depositor
afterwards succeeds again: it mutates the terminal record to `Refunded` and
issues a second payout of the full amount to the depositor. `refund_escrow`
never checks the status, contradicting the terminal-immutability invariant
(spec §3 invariant 2, §8) that the swap module's `refund_swap` does enforce. -/
theorem refund_after_completion_bug :
    (∃ e, mapGet escCompleted.escrows "e1" = some e ∧ e.status = .Completed)
    ∧ (∃ st', refund_escrow escCompleted ⟨"alice", 150, 0⟩ "e1"
          = .ok (st', [⟨"alice", 7⟩])
        ∧ (∃ e, mapGet st'.escrows "e1" = some e ∧ e.status = .Refunded)) :=
  ⟨⟨_, rfl, rfl⟩, ⟨_, rfl, ⟨_, rfl, rfl⟩⟩⟩

/-- C3: the claim requires `refund_escrow` to fail on any non-`Active`
escrow, but the code never checks the status: here the `Disputed` escrow
`e1` is refunded by the depositor (time passed, no verified proof) and the
full amount is paid back, although the spec says a dispute blocks refunds. -/
theorem refund_disputed_escrow_bug :
    (∃ e, mapGet escDisputed.escrows "e1" = some e ∧ e.status = .Disputed)
    ∧ (∃ st', refund_escrow escDisputed ⟨"alice", 150, 0⟩ "e1"
          = .ok (st', [⟨"alice", 7⟩])
        ∧ (∃ e, mapGet st'.escrows "e1" = some e ∧ e.status = .Refunded)) :=
  ⟨⟨_, rfl, rfl⟩, ⟨_, rfl, ⟨_, rfl, rfl⟩⟩⟩

/-- C4: the escrow `e1` holds a proof with `verified = true` and is still
`Active`, yet `submit_cross_chain_proof` accepts a new submission and
replaces the verified proof with a fresh unverified one — the code only
checks that the escrow is `Active`, so a verified proof is not protected
from overwriting, contrary to the claim. -/
theorem submit_overwrites_verified_proof_bug :
    (∃ e, mapGet escVerifiedProof.escrows "e1" = some e
        ∧ e.proofVerified = true ∧ e.status = .Active)
    ∧ (∃ st', submit_cross_chain_proof escVerifiedProof "e1" "eth2" "t2" 2 "d2"
          = .ok (st', [])
        ∧ (∃ e, mapGet st'.escrows "e1" = some e
            ∧ e.cross_chain_proof = some ⟨"eth2", "t2", 2, "d2", false, none⟩)) :=
  ⟨⟨_, rfl, rfl, rfl⟩, ⟨_, rfl, ⟨_, rfl, rfl⟩⟩⟩

end Escrow

namespace Swap

/-- C5: on a SHA256 swap, `complete_swap_with_oracle_verification` succeeds
exactly when the stored hash lock equals the lowercase hex of `sha256(secret)`,
the status is `Locked` and the block time is before the time lock; on success
the secret is recorded, the status becomes `Completed`, and settlement pays
`fee = amount * fee_percentage / 10000` to the fee recipient (only when the
fee is positive) and `amount - fee` to the participant. -/
theorem complete_swap_sha256_spec (sha256 : List Nat → List Nat)
    (st : SwapContract) (env : CallEnv) (swap_id secret : String)
    (swap : AtomicSwap) (hget : mapGet st.swaps swap_id = some swap)
    (halg : swap.hash_algorithm = .SHA256) :
    ((∃ r, complete_swap_with_oracle_verification sha256 st env swap_id secret = .ok r) ↔
      (hash_secret sha256 secret = swap.hash_lock ∧ swap.status = .Locked
        ∧ env.block_timestamp < swap.time_lock))
    ∧ (∀ st' outs,
        complete_swap_with_oracle_verification sha256 st env swap_id secret = .ok (st', outs) →
        st' = { st with swaps := (mapInsert st.swaps swap_id
                  { swap with secret := some secret, status := .Completed }) }
        ∧ outs = (if swap.amount * st.fee_percentage / 10000 > 0
              then [⟨st.fee_recipient, swap.amount * st.fee_percentage / 10000⟩] else [])
            ++ [⟨swap.participant, swap.amount - swap.amount * st.fee_percentage / 10000⟩]) := by
  have hnp : ¬ swap.hash_algorithm = HashAlgorithm.Poseidon := by
    rw [halg]; intro hc; cases hc
  by_cases hhash : hash_secret sha256 secret = swap.hash_lock
  · by_cases hstat : swap.status = SwapStatus.Locked
    · by_cases htime : env.block_timestamp < swap.time_lock
      · have hrf : complete_swap_with_oracle_verification sha256 st env swap_id secret
            = .ok ({ st with swaps := (mapInsert st.swaps swap_id
                      { swap with secret := some secret, status := .Completed }) },
                (if swap.amount * st.fee_percentage / 10000 > 0
                  then [⟨st.fee_recipient, swap.amount * st.fee_percentage / 10000⟩] else [])
                ++ [⟨swap.participant, swap.amount - swap.amount * st.fee_percentage / 10000⟩]) := by
          simp [complete_swap_with_oracle_verification, hget, hnp, hhash, hstat, htime]
        refine ⟨⟨fun _ => ⟨hhash, hstat, htime⟩, fun _ => ⟨_, hrf⟩⟩, ?_⟩
        intro st' outs h
        rw [hrf] at h
        injection h with h
        exact ⟨(congrArg Prod.fst h).symm, (congrArg Prod.snd h).symm⟩
      · have hrf : complete_swap_with_oracle_verification sha256 st env swap_id secret
            = .error "Swap has expired" := by
          simp [complete_swap_with_oracle_verification, hget, hnp, hhash, hstat, htime]
        refine ⟨⟨fun ⟨r, hr⟩ => ?_, fun ⟨_, _, h3⟩ => absurd h3 htime⟩, ?_⟩
        · rw [hrf] at hr; cases hr
        · intro st' outs h; rw [hrf] at h; cases h
    · have hrf : complete_swap_with_oracle_verification sha256 st env swap_id secret
          = .error "Swap must be locked" := by
        simp [complete_swap_with_oracle_verification, hget, hnp, hhash, hstat]
      refine ⟨⟨fun ⟨r, hr⟩ => ?_, fun ⟨_, h2, _⟩ => absurd h2 hstat⟩, ?_⟩
      · rw [hrf] at hr; cases hr
      · intro st' outs h; rw [hrf] at h; cases h
  · have hrf : complete_swap_with_oracle_verification sha256 st env swap_id secret
        = .error "Invalid secret" := by
      simp [complete_swap_with_oracle_verification, hget, hnp, hhash]
    refine ⟨⟨fun ⟨r, hr⟩ => ?_, fun ⟨h1, _, _⟩ => absurd h1 hhash⟩, ?_⟩
    · rw [hrf] at hr; cases hr
    · intro st' outs h; rw [hrf] at h; cases h

theorem complete_swap_sha256_spec_witness :
    (∃ r, complete_swap_with_oracle_verification sha0 swapLocked ⟨"bob", 10, 0⟩
        "s1" "hello" = .ok r) :=
  (complete_swap_sha256_spec sha0 swapLocked ⟨"bob", 10, 0⟩ "s1" "hello"
      swapLockedRecord (by decide) rfl).1.mpr ⟨rfl, rfl, by decide⟩

theorem initiate_swap_ok {st st' : SwapContract} {env : CallEnv}
    {swap_id participant hash_lock : String} {alg : HashAlgorithm} {dur : Nat}
    {tc ta : String} {cs : Option String} {outs : List TransferOut}
    (h : initiate_swap st env swap_id participant hash_lock alg dur tc ta cs
          = .ok (st', outs)) :
    ∃ swap : AtomicSwap, st'.swaps = mapInsert st.swaps swap_id swap
      ∧ swap.secret = none ∧ swap.status = .Initiated := by
  simp only [initiate_swap] at h
  split at h
  · exact Except.noConfusion h
  split at h
  · exact Except.noConfusion h
  split at h
  · exact Except.noConfusion h
  split at h
  · exact Except.noConfusion h
  injection h with h
  simp only [Prod.mk.injEq] at h
  obtain ⟨h1, h2⟩ := h
  subst h1
  exact ⟨_, rfl, rfl, rfl⟩

theorem lock_swap_ok {st st' : SwapContract} {env : CallEnv} {swap_id : String}
    {outs : List TransferOut} (h : lock_swap st env swap_id = .ok (st', outs)) :
    ∃ swap : AtomicSwap, mapGet st.swaps swap_id = some swap
      ∧ swap.status = .Initiated
      ∧ st'.swaps = mapInsert st.swaps swap_id { swap with status := .Locked } := by
  unfold lock_swap at h
  cases hget : mapGet st.swaps swap_id with
  | none => rw [hget] at h; exact Except.noConfusion h
  | some swap =>
    rw [hget] at h
    by_cases h1 : env.predecessor = swap.participant
    · by_cases h2 : swap.status = SwapStatus.Initiated
      · by_cases h3 : env.block_timestamp < swap.time_lock
        · simp only [h1, h2, h3, not_true, not_false_iff, ite_true, ite_false,
            Except.ok.injEq, Prod.mk.injEq] at h
          obtain ⟨hA, hB⟩ := h
          subst hA
          exact ⟨swap, rfl, h2, rfl⟩
        · simp [h1, h2, h3] at h
      · simp [h1, h2] at h
    · simp [h1] at h

theorem complete_swap_ok {sha256 : List Nat → List Nat} {st st' : SwapContract}
    {env : CallEnv} {swap_id secret : String} {outs : List TransferOut}
    (h : complete_swap_with_oracle_verification sha256 st env swap_id secret
          = .ok (st', outs)) :
    ∃ swap : AtomicSwap, mapGet st.swaps swap_id = some swap
      ∧ st'.swaps = (mapInsert st.swaps swap_id
          { swap with secret := some secret, status := .Completed })
      ∧ (swap.hash_algorithm = .SHA256 → hash_secret sha256 secret = swap.hash_lock) := by
  unfold complete_swap_with_oracle_verification at h
  cases hget : mapGet st.swaps swap_id with
  | none => rw [hget] at h; exact Except.noConfusion h
  | some swap =>
    rw [hget] at h
    by_cases halg : swap.hash_algorithm = HashAlgorithm.Poseidon
    · have hns : ¬ swap.hash_algorithm = HashAlgorithm.SHA256 := by
        rw [halg]; intro hc; cases hc
      cases hver : mapGet st.oracle_verifications swap_id with
      | none => rw [hver] at h; simp [halg] at h
      | some verification =>
        rw [hver] at h
        by_cases hv : verification.verified = true
        · by_cases h2 : swap.status = SwapStatus.Locked
          · by_cases h3 : env.block_timestamp < swap.time_lock
            · simp only [halg, hv, h2, h3, not_true, not_false_iff, ite_true,
                ite_false, Except.ok.injEq, Prod.mk.injEq] at h
              obtain ⟨hA, hB⟩ := h
              subst hA
              refine ⟨swap, rfl, ?_, fun hs => absurd hs hns⟩
              rw [halg]
            · simp [halg, hv, h2, h3] at h
          · simp [halg, hv, h2] at h
        · simp [halg, hv] at h
    · by_cases hhash : hash_secret sha256 secret = swap.hash_lock
      · by_cases h2 : swap.status = SwapStatus.Locked
        · by_cases h3 : env.block_timestamp < swap.time_lock
          · simp only [halg, hhash, h2, h3, not_true, not_false_iff, ite_true,
              ite_false, if_neg, Except.ok.injEq, Prod.mk.injEq] at h
            obtain ⟨hA, hB⟩ := h
            subst hA
            exact ⟨swap, rfl, rfl, fun _ => hhash⟩
          · simp [halg, hhash, h2, h3] at h
        · simp [halg, hhash, h2] at h
      · simp [halg, hhash] at h

theorem refund_swap_ok {st st' : SwapContract} {env : CallEnv} {swap_id : String}
    {outs : List TransferOut} (h : refund_swap st env swap_id = .ok (st', outs)) :
    ∃ swap : AtomicSwap, mapGet st.swaps swap_id = some swap
      ∧ ¬ swap.status = .Completed
      ∧ st'.swaps = mapInsert st.swaps swap_id { swap with status := .Refunded } := by
  unfold refund_swap at h
  cases hget : mapGet st.swaps swap_id with
  | none => rw [hget] at h; exact Except.noConfusion h
  | some swap =>
    rw [hget] at h
    by_cases h1 : env.predecessor = swap.initiator
    · by_cases h2 : swap.status = SwapStatus.Completed ∨ swap.status = SwapStatus.Refunded
      · simp [h1, h2] at h
      · by_cases h3 : env.block_timestamp ≥ swap.time_lock
        · simp only [h1, h2, h3, not_true, not_false_iff, ite_true, ite_false,
            Except.ok.injEq, Prod.mk.injEq] at h
          obtain ⟨hA, hB⟩ := h
          subst hA
          exact ⟨swap, rfl, fun hc => h2 (Or.inl hc), rfl⟩
        · simp [h1, h2, h3] at h
    · simp [h1] at h

theorem submit_oracle_verification_swaps {st st' : SwapContract} {env : CallEnv}
    {swap_id poseidon_hash : String} {secret_matches : Bool} {outs : List TransferOut}
    (h : submit_oracle_verification st env swap_id poseidon_hash secret_matches
          = .ok (st', outs)) : st'.swaps = st.swaps := by
  simp only [submit_oracle_verification] at h
  split at h
  · exact Except.noConfusion h
  split at h
  · exact Except.noConfusion h
  split at h
  · exact Except.noConfusion h
  injection h with h
  simp only [Prod.mk.injEq] at h
  rw [← h.1]

theorem set_fee_percentage_swaps {st st' : SwapContract} {env : CallEnv}
    {fp : Nat} {outs : List TransferOut}
    (h : set_fee_percentage st env fp = .ok (st', outs)) : st'.swaps = st.swaps := by
  simp only [set_fee_percentage] at h
  split at h
  · exact Except.noConfusion h
  split at h
  · exact Except.noConfusion h
  injection h with h
  simp only [Prod.mk.injEq] at h
  rw [← h.1]

theorem set_fee_recipient_swaps {st st' : SwapContract} {env : CallEnv}
    {fr : AccountId} {outs : List TransferOut}
    (h : set_fee_recipient st env fr = .ok (st', outs)) : st'.swaps = st.swaps := by
  simp only [set_fee_recipient] at h
  split at h
  · exact Except.noConfusion h
  injection h with h
  simp only [Prod.mk.injEq] at h
  rw [← h.1]

theorem set_oracle_account_swaps {st st' : SwapContract} {env : CallEnv}
    {oa : AccountId} {outs : List TransferOut}
    (h : set_oracle_account st env oa = .ok (st', outs)) : st'.swaps = st.swaps := by
  simp only [set_oracle_account] at h
  split at h
  · exact Except.noConfusion h
  injection h with h
  simp only [Prod.mk.injEq] at h
  rw [← h.1]

theorem swapStep_preserves_secret_inv {sha256 : List Nat → List Nat}
    {st st' : SwapContract} (hstep : SwapStep sha256 st st')
    (hinv : SwapInv sha256 st) : SwapInv sha256 st' := by
  cases hstep with
  | initiate env swap_id participant hash_lock alg dur tc ta cs st2 outs h =>
    obtain ⟨swap, hsw, hsec, hstat⟩ := initiate_swap_ok h
    intro id sw hget
    rw [hsw, mapGet_insert] at hget
    by_cases hid : id = swap_id
    · rw [if_pos hid] at hget
      injection hget with hget
      subst hget
      refine ⟨by simp [hsec, hstat], ?_⟩
      intro _ hc
      exact SwapStatus.noConfusion (hstat.symm.trans hc)
    · rw [if_neg hid] at hget
      exact hinv id sw hget
  | lock env swap_id st2 outs h =>
    obtain ⟨swap0, hget0, hstat0, hsw⟩ := lock_swap_ok h
    have hsec0 : swap0.secret = none := by
      cases hs : swap0.secret with
      | none => rfl
      | some x =>
        have h1 := (hinv _ _ hget0).1.mp (by rw [hs]; rfl)
        exact SwapStatus.noConfusion (hstat0.symm.trans h1)
    intro id sw hget
    rw [hsw, mapGet_insert] at hget
    by_cases hid : id = swap_id
    · rw [if_pos hid] at hget
      injection hget with hget
      subst hget
      refine ⟨by simp [hsec0], ?_⟩
      intro _ hc
      exact SwapStatus.noConfusion hc
    · rw [if_neg hid] at hget
      exact hinv id sw hget
  | complete env swap_id secret st2 outs h =>
    obtain ⟨swap0, hget0, hsw, hhash⟩ := complete_swap_ok h
    intro id sw hget
    rw [hsw, mapGet_insert] at hget
    by_cases hid : id = swap_id
    · rw [if_pos hid] at hget
      injection hget with hget
      subst hget
      refine ⟨by simp, ?_⟩
      intro halg _
      exact ⟨secret, rfl, hhash halg⟩
    · rw [if_neg hid] at hget
      exact hinv id sw hget
  | oracle env swap_id poseidon_hash secret_matches st2 outs h =>
    have hsw := submit_oracle_verification_swaps h
    intro id sw hget
    rw [hsw] at hget
    exact hinv id sw hget
  | refund env swap_id st2 outs h =>
    obtain ⟨swap0, hget0, hnc, hsw⟩ := refund_swap_ok h
    have hsec0 : swap0.secret = none := by
      cases hs : swap0.secret with
      | none => rfl
      | some x =>
        exact absurd ((hinv _ _ hget0).1.mp (by rw [hs]; rfl)) hnc
    intro id sw hget
    rw [hsw, mapGet_insert] at hget
    by_cases hid : id = swap_id
    · rw [if_pos hid] at hget
      injection hget with hget
      subst hget
      refine ⟨by simp [hsec0], ?_⟩
      intro _ hc
      exact SwapStatus.noConfusion hc
    · rw [if_neg hid] at hget
      exact hinv id sw hget
  | setFee env fp st2 outs h =>
    have hsw := set_fee_percentage_swaps h
    intro id sw hget
    rw [hsw] at hget
    exact hinv id sw hget
  | setRecipient env fr st2 outs h =>
    have hsw := set_fee_recipient_swaps h
    intro id sw hget
    rw [hsw] at hget
    exact hinv id sw hget
  | setOracle env oa st2 outs h =>
    have hsw := set_oracle_account_swaps h
    intro id sw hget
    rw [hsw] at hget
    exact hinv id sw hget

/-- C6: in every reachable state of the swap contract, a swap's `secret` is
`Some` exactly when its status is `Completed`, and every SHA256 swap that
reached `Completed` records a secret whose lowercase hex sha256 digest equals
its `hash_lock`. -/
theorem swap_secret_invariant (sha256 : List Nat → List Nat) (st : SwapContract)
    (h : SwapReachable sha256 st) : SwapInv sha256 st := by
  induction h with
  | init owner oracle_account =>
    intro id swap hget
    exact Option.noConfusion hget
  | step _ hstep ih => exact swapStep_preserves_secret_inv hstep ih

theorem swapCompleted_reachable : SwapReachable sha0 swapCompleted := by
  have h0 : SwapReachable sha0 swapStart := SwapReachable.init "owner" "oracle"
  have h1 : SwapReachable sha0 swapInit :=
    h0.step (SwapStep.initiate swapStart ⟨"alice", 0, 10000⟩ "s1" "bob" hl64
      .SHA256 3600 "eth" "0x1" none swapInit [] rfl)
  have h2 : SwapReachable sha0 swapLocked :=
    h1.step (SwapStep.lock swapInit ⟨"bob", 5, 0⟩ "s1" swapLocked [] rfl)
  exact h2.step (SwapStep.complete swapLocked ⟨"bob", 10, 0⟩ "s1" "hello"
    swapCompleted [⟨"owner", 30⟩, ⟨"bob", 9970⟩] rfl)

theorem swap_secret_invariant_witness :
    (swapCompletedRecord.secret.isSome = true
        ↔ swapCompletedRecord.status = .Completed)
    ∧ (swapCompletedRecord.hash_algorithm = .SHA256 →
        swapCompletedRecord.status = .Completed →
        ∃ x, swapCompletedRecord.secret = some x
          ∧ hash_secret sha0 x = swapCompletedRecord.hash_lock) :=
  swap_secret_invariant sha0 swapCompleted swapCompleted_reachable "s1"
    swapCompletedRecord (by decide)

end Swap

namespace P2P

theorem send_direct_pool {st st' : P2PTransferContract} {env : CallEnv}
    {transfer_id : String} {recipient : AccountId} {memo : String}
    {outs : List TransferOut}
    (h : send_direct st env transfer_id recipient memo = .ok (st', outs)) :
    st'.shielded_pool = st.shielded_pool := by
  simp only [send_direct] at h
  split at h
  · exact Except.noConfusion h
  split at h
  · exact Except.noConfusion h
  injection h with h
  simp only [Prod.mk.injEq] at h
  rw [← h.1]

theorem p2p_set_fee_percentage_pool {st st' : P2PTransferContract} {env : CallEnv}
    {fp : Nat} {outs : List TransferOut}
    (h : p2p_set_fee_percentage st env fp = .ok (st', outs)) :
    st'.shielded_pool = st.shielded_pool := by
  simp only [p2p_set_fee_percentage] at h
  split at h
  · exact Except.noConfusion h
  split at h
  · exact Except.noConfusion h
  injection h with h
  simp only [Prod.mk.injEq] at h
  rw [← h.1]

theorem p2p_set_fee_recipient_pool {st st' : P2PTransferContract} {env : CallEnv}
    {fr : AccountId} {outs : List TransferOut}
    (h : p2p_set_fee_recipient st env fr = .ok (st', outs)) :
    st'.shielded_pool = st.shielded_pool := by
  simp only [p2p_set_fee_recipient] at h
  split at h
  · exact Except.noConfusion h
  injection h with h
  simp only [Prod.mk.injEq] at h
  rw [← h.1]

theorem shield_deposit_ok {st st' : P2PTransferContract} {env : CallEnv}
    {note_id commitment : String} {outs : List TransferOut}
    (h : shield_deposit st env note_id commitment = .ok (st', outs)) :
    mapGet st.shielded_pool note_id = none
    ∧ st'.shielded_pool = mapInsert st.shielded_pool note_id
        { note_id, commitment, amount := env.attached_deposit, spent := false,
          nullifier := none, created_at := env.block_timestamp } := by
  simp only [shield_deposit] at h
  split at h
  · exact Except.noConfusion h
  split at h
  · exact Except.noConfusion h
  split at h
  · exact Except.noConfusion h
  rename_i hdep hdup hlen
  injection h with h
  simp only [Prod.mk.injEq] at h
  obtain ⟨h1, h2⟩ := h
  subst h1
  exact ⟨Option.not_isSome_iff_eq_none.mp hdup, rfl⟩

theorem shield_transfer_ok {st st' : P2PTransferContract} {env : CallEnv}
    {transfer_id input_note_id nullifier new_commitment recipient_commitment
      proof memo : String} {outs : List TransferOut}
    (h : shield_transfer st env transfer_id input_note_id nullifier
          new_commitment recipient_commitment proof memo = .ok (st', outs)) :
    ∃ note : ShieldedNote, mapGet st.shielded_pool input_note_id = some note
      ∧ note.spent = false
      ∧ st'.shielded_pool = mapInsert st.shielded_pool input_note_id
          { note with spent := true, nullifier := some nullifier } := by
  unfold shield_transfer at h
  cases hget : mapGet st.shielded_pool input_note_id with
  | none =>
    rw [hget] at h
    split at h
    · exact Except.noConfusion h
    split at h
    · exact Except.noConfusion h
    exact Except.noConfusion h
  | some note =>
    rw [hget] at h
    by_cases htid : (mapGet st.transfers transfer_id).isSome
    · simp [htid] at h
    · by_cases hproof : proof.length > 0
      · by_cases hspent : note.spent = true
        · simp [htid, hproof, hspent] at h
        · have hspf : note.spent = false := Bool.eq_false_iff.mpr hspent
          by_cases h1 : nullifier.length = 64
          · by_cases h2 : new_commitment.length = 64
            · by_cases h3 : recipient_commitment.length = 64
              · simp only [htid, hproof, hspent, h1, h2, h3, not_true,
                  not_false_iff, ite_true, ite_false, Bool.false_eq_true,
                  if_false, Except.ok.injEq, Prod.mk.injEq] at h
                obtain ⟨hA, hB⟩ := h
                subst hA
                exact ⟨note, rfl, hspf, rfl⟩
              · simp [htid, hproof, hspent, h1, h2, h3] at h
            · simp [htid, hproof, hspent, h1, h2] at h
          · simp [htid, hproof, hspent, h1] at h
      · simp [htid, hproof] at h

theorem shield_withdraw_ok {st st' : P2PTransferContract} {env : CallEnv}
    {transfer_id note_id nullifier : String} {recipient : AccountId}
    {proof : String} {outs : List TransferOut}
    (h : shield_withdraw st env transfer_id note_id nullifier recipient proof
          = .ok (st', outs)) :
    ∃ note : ShieldedNote, mapGet st.shielded_pool note_id = some note
      ∧ note.spent = false
      ∧ st'.shielded_pool = mapInsert st.shielded_pool note_id
          { note with spent := true, nullifier := some nullifier } := by
  unfold shield_withdraw at h
  cases hget : mapGet st.shielded_pool note_id with
  | none =>
    rw [hget] at h
    split at h
    · exact Except.noConfusion h
    exact Except.noConfusion h
  | some note =>
    rw [hget] at h
    by_cases htid : (mapGet st.transfers transfer_id).isSome
    · simp [htid] at h
    · by_cases hspent : note.spent = true
      · simp [htid, hspent] at h
      · have hspf : note.spent = false := Bool.eq_false_iff.mpr hspent
        simp only [htid, hspent, not_true, not_false_iff, ite_true, ite_false,
          Bool.false_eq_true, if_false, Except.ok.injEq, Prod.mk.injEq] at h
        obtain ⟨hA, hB⟩ := h
        subst hA
        exact ⟨note, rfl, hspf, rfl⟩

theorem p2pStep_preserves_note_inv {st st' : P2PTransferContract}
    (hstep : P2PStep st st') (hinv : NoteInv st) : NoteInv st' := by
  cases hstep with
  | direct env transfer_id recipient memo st2 outs h =>
    have hsw := send_direct_pool h
    intro id note hget
    rw [hsw] at hget
    exact hinv id note hget
  | deposit env note_id commitment st2 outs h =>
    obtain ⟨hdup, hsw⟩ := shield_deposit_ok h
    intro id note hget
    rw [hsw, mapGet_insert] at hget
    by_cases hid : id = note_id
    · rw [if_pos hid] at hget
      injection hget with hget
      subst hget
      simp
    · rw [if_neg hid] at hget
      exact hinv id note hget
  | transfer env transfer_id input_note_id nullifier new_commitment
      recipient_commitment proof memo st2 outs h =>
    obtain ⟨note0, hget0, hsp0, hsw⟩ := shield_transfer_ok h
    intro id note hget
    rw [hsw, mapGet_insert] at hget
    by_cases hid : id = input_note_id
    · rw [if_pos hid] at hget
      injection hget with hget
      subst hget
      simp
    · rw [if_neg hid] at hget
      exact hinv id note hget
  | withdraw env transfer_id note_id nullifier recipient proof st2 outs h =>
    obtain ⟨note0, hget0, hsp0, hsw⟩ := shield_withdraw_ok h
    intro id note hget
    rw [hsw, mapGet_insert] at hget
    by_cases hid : id = note_id
    · rw [if_pos hid] at hget
      injection hget with hget
      subst hget
      simp
    · rw [if_neg hid] at hget
      exact hinv id note hget
  | setFee env fp st2 outs h =>
    have hsw := p2p_set_fee_percentage_pool h
    intro id note hget
    rw [hsw] at hget
    exact hinv id note hget
  | setRecipient env fr st2 outs h =>
    have hsw := p2p_set_fee_recipient_pool h
    intro id note hget
    rw [hsw] at hget
    exact hinv id note hget

theorem p2pStep_spent_note_frozen {st st' : P2PTransferContract}
    (hstep : P2PStep st st') (id : String) (note : ShieldedNote)
    (hget : mapGet st.shielded_pool id = some note) (hsp : note.spent = true) :
    mapGet st'.shielded_pool id = some note := by
  cases hstep with
  | direct env transfer_id recipient memo st2 outs h =>
    rw [send_direct_pool h]; exact hget
  | deposit env note_id commitment st2 outs h =>
    obtain ⟨hdup, hsw⟩ := shield_deposit_ok h
    have hid : ¬ id = note_id := by
      intro hc
      rw [hc, hdup] at hget
      exact Option.noConfusion hget
    rw [hsw, mapGet_insert, if_neg hid]
    exact hget
  | transfer env transfer_id input_note_id nullifier new_commitment
      recipient_commitment proof memo st2 outs h =>
    obtain ⟨note0, hget0, hsp0, hsw⟩ := shield_transfer_ok h
    have hid : ¬ id = input_note_id := by
      intro hc
      rw [hc, hget0] at hget
      injection hget with hget
      rw [← hget] at hsp
      rw [hsp0] at hsp
      exact Bool.noConfusion hsp
    rw [hsw, mapGet_insert, if_neg hid]
    exact hget
  | withdraw env transfer_id note_id nullifier recipient proof st2 outs h =>
    obtain ⟨note0, hget0, hsp0, hsw⟩ := shield_withdraw_ok h
    have hid : ¬ id = note_id := by
      intro hc
      rw [hc, hget0] at hget
      injection hget with hget
      rw [← hget] at hsp
      rw [hsp0] at hsp
      exact Bool.noConfusion hsp
    rw [hsw, mapGet_insert, if_neg hid]
    exact hget
  | setFee env fp st2 outs h =>
    rw [p2p_set_fee_percentage_pool h]; exact hget
  | setRecipient env fr st2 outs h =>
    rw [p2p_set_fee_recipient_pool h]; exact hget

/-- C7: in every reachable state of the shielded pool a note is spent exactly
when it records a nullifier; a spent note is frozen by every further
transition (it makes at most one transition to spent and is never reverted);
and `shield_deposit` creates its note unspent with no nullifier. -/
theorem shielded_note_lifecycle :
    (∀ st, P2PReachable st → NoteInv st)
    ∧ (∀ st st', P2PStep st st' → ∀ id note,
        mapGet st.shielded_pool id = some note → note.spent = true →
        mapGet st'.shielded_pool id = some note)
    ∧ (∀ st env note_id commitment st' outs,
        shield_deposit st env note_id commitment = .ok (st', outs) →
        mapGet st'.shielded_pool note_id = some
          { note_id, commitment, amount := env.attached_deposit, spent := false,
            nullifier := none, created_at := env.block_timestamp }) := by
  refine ⟨?_, ?_, ?_⟩
  · intro st h
    induction h with
    | init owner =>
      intro id note hget
      exact Option.noConfusion hget
    | step _ hstep ih => exact p2pStep_preserves_note_inv hstep ih
  · intro st st' hstep id note hget hsp
    exact p2pStep_spent_note_frozen hstep id note hget hsp
  · intro st env note_id commitment st' outs h
    obtain ⟨hdup, hsw⟩ := shield_deposit_ok h
    rw [hsw, mapGet_insert, if_pos rfl]

theorem shielded_note_lifecycle_witness :
    mapGet p2pOneNote.shielded_pool "n1" = some
      { note_id := "n1", commitment := c64, amount := 1000, spent := false,
        nullifier := none, created_at := 0 } :=
  shielded_note_lifecycle.2.2 p2pStart ⟨"alice", 0, 1000⟩ "n1" c64 p2pOneNote [] rfl

/-- C8 counterexample: in the reachable state `p2pSpentOne` the note `n1` is
already spent with nullifier `nul64` and `is_nullifier_used` reports it used,
yet `shield_withdraw` accepts the very same nullifier to spend the distinct
note `n2`: both notes end up spent with the identical nullifier string, so
shielded operations do not reject an already-used nullifier. -/
theorem nullifier_reuse_counterexample :
    mapGet p2pSpentOne.shielded_pool "n1"
      = some { note_id := "n1", commitment := c64, amount := 1000,
               spent := true, nullifier := some nul64, created_at := 0 }
    ∧ is_nullifier_used p2pSpentOne nul64 = true
    ∧ (∃ st', shield_withdraw p2pSpentOne ⟨"carol", 6, 0⟩ "t2" "n2" nul64 "dave" "p"
          = .ok (st', [⟨"owner", 2⟩, ⟨"dave", 1998⟩])
        ∧ mapGet st'.shielded_pool "n1"
            = some { note_id := "n1", commitment := c64, amount := 1000,
                     spent := true, nullifier := some nul64, created_at := 0 }
        ∧ mapGet st'.shielded_pool "n2"
            = some { note_id := "n2", commitment := c64, amount := 2000,
                     spent := true, nullifier := some nul64, created_at := 0 }) :=
  ⟨rfl, rfl, ⟨_, rfl, rfl, rfl⟩⟩

/-- C8 (amended): double-spend protection is per note only. An operation on
an already-spent note always fails, but the nullifier argument is never
checked against other notes, so a nullifier already recorded on one note is
accepted to spend a distinct unspent note. -/
theorem per_note_spend_protection (st : P2PTransferContract) (env : CallEnv)
    (tid nid null rec proof : String) (note : ShieldedNote)
    (hget : mapGet st.shielded_pool nid = some note) :
    (note.spent = true →
      (¬ ∃ r, shield_withdraw st env tid nid null rec proof = .ok r)
      ∧ ∀ nc rc memo, ¬ ∃ r, shield_transfer st env tid nid null nc rc proof memo
          = .ok r)
    ∧ (note.spent = false → mapGet st.transfers tid = none →
        ∃ r, shield_withdraw st env tid nid null rec proof = .ok r) := by
  constructor
  · intro hsp
    constructor
    · rintro ⟨r, hr⟩
      obtain ⟨note2, hget2, hsp2, -⟩ := shield_withdraw_ok hr
      rw [hget] at hget2
      injection hget2 with hget2
      rw [← hget2, hsp] at hsp2
      exact Bool.noConfusion hsp2
    · rintro nc rc memo ⟨r, hr⟩
      obtain ⟨note2, hget2, hsp2, -⟩ := shield_transfer_ok hr
      rw [hget] at hget2
      injection hget2 with hget2
      rw [← hget2, hsp] at hsp2
      exact Bool.noConfusion hsp2
  · intro hsp htid
    cases hr : shield_withdraw st env tid nid null rec proof with
    | ok r => exact ⟨r, rfl⟩
    | error e =>
      exfalso
      simp [shield_withdraw, htid, hget, hsp] at hr

theorem per_note_spend_protection_witness :
    ¬ ∃ r, shield_withdraw p2pSpentOne ⟨"carol", 7, 0⟩ "t9" "n1" nul64 "dave" "p"
        = .ok r :=
  ((per_note_spend_protection p2pSpentOne ⟨"carol", 7, 0⟩ "t9" "n1" nul64 "dave" "p"
      { note_id := "n1", commitment := c64, amount := 1000, spent := true,
        nullifier := some nul64, created_at := 0 } (by decide)).1 rfl).1

/-- C9: if `shield_transfer` passes its first checks (fresh transfer id,
non-empty proof, existing unspent input note) but a nullifier/commitment
length check fails, the call panics, and under the host's
rollback-on-panic semantics the committed module state is exactly the
pre-state: the input note stays unspent with no nullifier and no transfer
record is created. -/
theorem shield_transfer_failed_validation_rollback
    (st : P2PTransferContract) (env : CallEnv)
    (tid nid null nc rc proof memo : String) (note : ShieldedNote)
    (htid : mapGet st.transfers tid = none)
    (hproof : proof.length > 0)
    (hget : mapGet st.shielded_pool nid = some note)
    (hspent : note.spent = false)
    (hbad : ¬ null.length = 64 ∨ ¬ nc.length = 64 ∨ ¬ rc.length = 64) :
    (∃ e, shield_transfer st env tid nid null nc rc proof memo = .error e)
    ∧ commit st (shield_transfer st env tid nid null nc rc proof memo) = (st, [])
    ∧ mapGet (commit st (shield_transfer st env tid nid null nc rc proof memo)).1.shielded_pool
        nid = some note
    ∧ mapGet (commit st (shield_transfer st env tid nid null nc rc proof memo)).1.transfers
        tid = none := by
  have herr : ∃ e, shield_transfer st env tid nid null nc rc proof memo = .error e := by
    by_cases h1 : null.length = 64
    · by_cases h2 : nc.length = 64
      · have h3 : ¬ rc.length = 64 := by
          rcases hbad with h | h | h
          · exact absurd h1 h
          · exact absurd h2 h
          · exact h
        exact ⟨"Invalid recipient commitment",
          by simp [shield_transfer, htid, hproof, hget, hspent, h1, h2, h3]⟩
      · exact ⟨"Invalid new commitment",
          by simp [shield_transfer, htid, hproof, hget, hspent, h1, h2]⟩
    · exact ⟨"Invalid nullifier",
        by simp [shield_transfer, htid, hproof, hget, hspent, h1]⟩
  obtain ⟨e, he⟩ := herr
  refine ⟨⟨e, he⟩, ?_, ?_, ?_⟩ <;> rw [he]
  · rfl
  · exact hget
  · exact htid

theorem shield_transfer_failed_validation_rollback_witness :
    commit p2pTwoNotes
        (shield_transfer p2pTwoNotes ⟨"carol", 9, 0⟩ "t9" "n1" "short" c64 c64 "p" "")
      = (p2pTwoNotes, []) :=
  (shield_transfer_failed_validation_rollback p2pTwoNotes ⟨"carol", 9, 0⟩
    "t9" "n1" "short" c64 c64 "p" ""
    { note_id := "n1", commitment := c64, amount := 1000, spent := false,
      nullifier := none, created_at := 0 }
    rfl (by decide) (by decide) rfl (Or.inl (by decide))).2.1

/-- C10: `shield_withdraw` validates neither its proof nor its nullifier:
for every proof string (the empty string included) and nullifier of any
length it succeeds whenever the transfer id is unused and the note exists
unspent — whereas a successful `shield_transfer` implies a non-empty proof
and 64-character nullifier and commitments. -/
theorem shield_withdraw_no_format_validation
    (st : P2PTransferContract) (env : CallEnv) (tid nid null rec proof : String)
    (note : ShieldedNote)
    (htid : mapGet st.transfers tid = none)
    (hget : mapGet st.shielded_pool nid = some note)
    (hspent : note.spent = false) :
    (∃ r, shield_withdraw st env tid nid null rec proof = .ok r)
    ∧ (∀ tid2 nid2 null2 nc2 rc2 proof2 memo2 r,
        shield_transfer st env tid2 nid2 null2 nc2 rc2 proof2 memo2 = .ok r →
        proof2.length > 0 ∧ null2.length = 64 ∧ nc2.length = 64
          ∧ rc2.length = 64) := by
  constructor
  · cases hr : shield_withdraw st env tid nid null rec proof with
    | ok r => exact ⟨r, rfl⟩
    | error e =>
      exfalso
      simp [shield_withdraw, htid, hget, hspent] at hr
  · intro tid2 nid2 null2 nc2 rc2 proof2 memo2 r h
    unfold shield_transfer at h
    by_cases htid2 : (mapGet st.transfers tid2).isSome
    · simp [htid2] at h
    · by_cases hp : proof2.length > 0
      · cases hget2 : mapGet st.shielded_pool nid2 with
        | none =>
          rw [hget2] at h
          simp [htid2, hp] at h
        | some note2 =>
          rw [hget2] at h
          by_cases hs2 : note2.spent = true
          · simp [htid2, hp, hs2] at h
          · by_cases h1 : null2.length = 64
            · by_cases h2 : nc2.length = 64
              · by_cases h3 : rc2.length = 64
                · exact ⟨hp, h1, h2, h3⟩
                · simp [htid2, hp, hs2, h1, h2, h3] at h
              · simp [htid2, hp, hs2, h1, h2] at h
            · simp [htid2, hp, hs2, h1] at h
      · simp [htid2, hp] at h

theorem shield_withdraw_no_format_validation_witness :
    (∃ r, shield_withdraw p2pTwoNotes ⟨"carol", 9, 0⟩ "t9" "n1" "x" "dave" ""
        = .ok r) :=
  (shield_withdraw_no_format_validation p2pTwoNotes ⟨"carol", 9, 0⟩ "t9" "n1"
    "x" "dave" ""
    { note_id := "n1", commitment := c64, amount := 1000, spent := false,
      nullifier := none, created_at := 0 }
    rfl (by decide) rfl).1

end P2P

end CiphraPay
